import Mathlib

/-!
Shallow embedding of the Scoring Reconciliation Engine of the F1 Fantasy
Tracker (src/f1_fantasy_app/models/data_manager.py and
src/f1_fantasy_app/models/player_model.py), together with theorems settling
the specification claims.  Python floats are modelled as exact rationals,
dates as natural-number day ordinals, pandas data frames as lists of rows,
and the Excel workbook as an explicit store value threaded through the
operations.
-/

namespace F1

/-- Points values; the Python floats are modelled as exact rationals. -/
abbrev Points := ℚ

/-- A row of the Races sheet: RaceID, Name, Date, Status. -/
structure RaceRow where
  raceId : String
  name : String
  date : Nat
  status : String
deriving DecidableEq

/-- A row of the Drivers sheet. -/
structure DriverRow where
  driverId : String
  name : String
  defaultTeam : String
  credits : Nat
deriving DecidableEq

/-- A row of the Teams sheet. -/
structure TeamRow where
  teamId : String
  name : String
deriving DecidableEq

/-- A row of the PlayerPicks sheet; toDate none models an open-ended pick. -/
structure PickRow where
  playerId : String
  playerName : String
  driverId : String
  fromDate : Nat
  toDate : Option Nat
deriving DecidableEq

/-- A row of the DriverAssignments sheet; driverId is the substitute. -/
structure AssignRow where
  raceId : String
  driverId : String
  teamId : String
  substitutedForDriverId : String
deriving DecidableEq

/-- A row of the RaceResults sheet (cumulative points convention). -/
structure RaceResultRow where
  raceId : String
  driverId : String
  points : Points
deriving DecidableEq

/-- A row of the PlayerResults sheet (cumulative points convention). -/
structure PlayerResultRow where
  raceId : String
  playerId : String
  points : Points
  calculationDetails : String
deriving DecidableEq

/-- The raw in-memory snapshot of the seven sheets (_load_raw_data). -/
structure RawData where
  races : List RaceRow
  drivers : List DriverRow
  teams : List TeamRow
  playerPicks : List PickRow
  driverAssignments : List AssignRow
  raceResults : List RaceResultRow
  playerResults : List PlayerResultRow
deriving DecidableEq

/-- A processed driver result row; cumulativePoints is some only for rows
produced by the normalizer (the raw frame has no such column). -/
structure ProcRaceRow where
  raceId : String
  driverId : String
  points : Points
  cumulativePoints : Option Points
deriving DecidableEq

/-- A processed player result row. -/
structure ProcPlayerRow where
  raceId : String
  playerId : String
  points : Points
  cumulativePoints : Option Points
  calculationDetails : String
deriving DecidableEq

/-- The processed snapshot produced by _process_data. -/
structure ProcessedData where
  races : List RaceRow
  drivers : List DriverRow
  teams : List TeamRow
  playerPicks : List PickRow
  driverAssignments : List AssignRow
  raceResults : List ProcRaceRow
  playerResults : List ProcPlayerRow
deriving DecidableEq

/-! ### String helpers (Python str operations, modelled over character lists) -/

/-- Drop leading whitespace characters. -/
def dropLeadingWs : List Char → List Char
  | [] => []
  | c :: rest => if c.isWhitespace then dropLeadingWs rest else c :: rest

/-- Python str.strip(): drop whitespace at both ends. -/
def pyStrip (s : String) : String :=
  String.mk ((dropLeadingWs ((dropLeadingWs s.data).reverse)).reverse)

/-- Helper for pyWords: accumulate the current word (reversed) while
scanning. -/
def wordsAux : List Char → List Char → List (List Char)
  | cur, [] => if cur.isEmpty then [] else [cur.reverse]
  | cur, c :: rest =>
    if c.isWhitespace then
      if cur.isEmpty then wordsAux [] rest else cur.reverse :: wordsAux [] rest
    else wordsAux (c :: cur) rest

/-- Python str.split() with no argument: whitespace-separated words, empty
pieces dropped. -/
def pyWords (s : String) : List String :=
  (wordsAux [] s.data).map String.mk

/-- Helper for splitComma. -/
def splitCommaAux : List Char → List Char → List String
  | cur, [] => [String.mk cur.reverse]
  | cur, c :: rest =>
    if c = ',' then String.mk cur.reverse :: splitCommaAux [] rest
    else splitCommaAux (c :: cur) rest

/-- Python str.split(sep=comma). -/
def splitComma (s : String) : List String := splitCommaAux [] s.data

/-- Helper for splitFirstColon. -/
def splitFirstColonAux : List Char → List Char → List Char × List Char
  | acc, [] => (acc.reverse, [])
  | acc, c :: rest =>
    if c = ':' then (acc.reverse, rest) else splitFirstColonAux (c :: acc) rest

/-- Python part.split(colon, 1): the text before the first colon and the text
after it (callers guard on the colon being present). -/
def splitFirstColon (s : String) : String × String :=
  let p := splitFirstColonAux [] s.data
  (String.mk p.1, String.mk p.2)

/-- Membership of a character in a string (the Python in operator). -/
def strContainsChar (s : String) (c : Char) : Bool := s.data.contains c

/-- Digits of a numeral folded into a natural number. -/
def digitsToNat (cs : List Char) : Nat :=
  cs.foldl (fun n c => 10 * n + (c.toNat - 48)) 0

/-- Rendering of a rational with one fractional digit (the Python format
specifier .1f), rounding half up.  The exact digit rendering of CPython
floats is idealised; no claim depends on it. -/
def oneDecimalStr (q : Points) : String :=
  let t : ℚ := q * 10 + 1 / 2
  let n : Int := t.num.fdiv t.den
  let sign := if n < 0 then "-" else ""
  sign ++ toString (n.natAbs / 10) ++ "." ++ toString (n.natAbs % 10)

/-- Rendering of a numeric value interpolated into an f-string.  Integral
values print without a fractional part; the rendering of non-integral
rationals is idealised; no claim depends on it. -/
def ratStr (q : Points) : String :=
  if q.den = 1 then toString q.num
  else toString q.num ++ "/" ++ toString q.den

/-! ### The Per-Event Normalizer (_process_data) -/

/-- Ascending-date comparison of race rows. -/
def raceDateLe (a b : RaceRow) : Prop := a.date ≤ b.date

instance : DecidableRel raceDateLe :=
  fun a b => inferInstanceAs (Decidable (a.date ≤ b.date))

instance : IsTotal RaceRow raceDateLe := ⟨fun a b => Nat.le_total a.date b.date⟩

instance : IsTrans RaceRow raceDateLe := ⟨fun _ _ _ h1 h2 => Nat.le_trans h1 h2⟩

/-- pandas sort_values by the Date column, ascending (modelled as a stable
insertion sort). -/
def sortByDate (rs : List RaceRow) : List RaceRow :=
  List.insertionSort raceDateLe rs

/-- RaceIDs of completed races in ascending date order, as computed at the
head of _process_data. -/
def completedRaceIds (races : List RaceRow) : List String :=
  (sortByDate (races.filter (fun r => r.status == "Completed"))).map
    (fun r => r.raceId)

/-- Dictionary lookup built by iterating rows: the last row for a key wins
(Python dict assignment in a loop, modelled as a fold over the rows). -/
def lookupLast {α : Type} (rows : List α) (p : α → Bool) : Option α :=
  rows.foldl (fun acc r => if p r then some r else acc) none

/-- pandas Series.unique: first-occurrence order, duplicates dropped. -/
def uniqueKeys (xs : List String) : List String :=
  xs.foldl (fun acc x => if acc.contains x then acc else acc ++ [x]) []

/-- The cumulative-to-delta walk shared by _process_data and
_process_race_results: prev_points starts at the given value; an event with
a stored cumulative c emits delta c - prev and sets prev to c; an event
without a record emits delta 0 and leaves prev unchanged.  Each emitted
triple is (race id, per-race delta, prev after the event). -/
def walkDeltas (cum : String → Option Points) :
    List String → Points → List (String × Points × Points)
  | [], _ => []
  | rid :: rest, prev =>
    match cum rid with
    | some c => (rid, c - prev, c) :: walkDeltas cum rest c
    | none => (rid, 0, prev) :: walkDeltas cum rest prev

/-- cumulative_points_map for one driver: RaceID mapped to the stored
cumulative Points (last row wins). -/
def driverCumMap (rrs : List RaceResultRow) (driverId : String) :
    String → Option Points :=
  fun rid =>
    (lookupLast (rrs.filter (fun r => r.driverId == driverId))
      (fun r => r.raceId == rid)).map (fun r => r.points)

/-- Per-race driver rows emitted by the driver loop of _process_data. -/
def perRaceDriverRows (rrs : List RaceResultRow) (ids : List String)
    (driverId : String) : List ProcRaceRow :=
  (walkDeltas (driverCumMap rrs driverId) ids 0).map
    (fun t => ⟨t.1, driverId, t.2.1, some t.2.2⟩)

/-- player_data_map for one player: RaceID mapped to the stored row (last
row wins). -/
def playerDataMap (prs : List PlayerResultRow) (playerId : String)
    (rid : String) : Option PlayerResultRow :=
  lookupLast (prs.filter (fun r => r.playerId == playerId))
    (fun r => r.raceId == rid)

/-- _regenerate_calculation_details: re-resolve every colon segment of the
stored details against the per-race driver rows, dropping segments whose
driver has no row for the race. -/
def regenerateCalculationDetails (raceId : String) (originalDetails : String)
    (raceResultsDf : List ProcRaceRow) : String :=
  if originalDetails == "" then ""
  else
    let newParts := (splitComma originalDetails).filterMap (fun part0 =>
      let part := pyStrip part0
      if strContainsChar part ':' then
        let driverPart := pyStrip (splitFirstColon part).1
        let driverId :=
          if strContainsChar driverPart ' ' then (pyWords driverPart).headD driverPart
          else driverPart
        match (raceResultsDf.filter
            (fun r => r.raceId == raceId && r.driverId == driverId)).head? with
        | some row => some (driverPart ++ ": " ++ oneDecimalStr row.points)
        | none => none
      else none)
    String.intercalate ", " newParts

/-- Per-race player rows emitted by the player loop of _process_data; the
delta walk is the same as for drivers, and each row carries regenerated
calculation details. -/
def perRacePlayerRows (prs : List PlayerResultRow) (ids : List String)
    (rrDf : List ProcRaceRow) (playerId : String) : List ProcPlayerRow :=
  (walkDeltas (fun rid => (playerDataMap prs playerId rid).map (fun r => r.points))
      ids 0).map
    (fun t =>
      let calcDetails :=
        match playerDataMap prs playerId t.1 with
        | some r => r.calculationDetails
        | none => ""
      ⟨t.1, playerId, t.2.1, some t.2.2,
        regenerateCalculationDetails t.1 calcDetails rrDf⟩)

/-- _process_data: the Per-Event Normalizer.  With no completed races the
block is skipped and the copied raw tables are returned; otherwise the
driver and player result tables are replaced by per-race versions (each
only when the recomputed list is nonempty, mirroring the source guards). -/
def processData (raw : RawData) : ProcessedData :=
  let ids := completedRaceIds raw.races
  let base : ProcessedData :=
    ⟨raw.races, raw.drivers, raw.teams, raw.playerPicks, raw.driverAssignments,
     raw.raceResults.map (fun r => ⟨r.raceId, r.driverId, r.points, none⟩),
     raw.playerResults.map
       (fun r => ⟨r.raceId, r.playerId, r.points, none, r.calculationDetails⟩)⟩
  if ids.isEmpty then base
  else
    let perRaceDriver :=
      (uniqueKeys (raw.drivers.map (fun d => d.driverId))).flatMap
        (fun did => perRaceDriverRows raw.raceResults ids did)
    let newRR := if perRaceDriver.isEmpty then base.raceResults else perRaceDriver
    let perRacePlayer :=
      (uniqueKeys (raw.playerResults.map (fun r => r.playerId))).flatMap
        (fun pid => perRacePlayerRows raw.playerResults ids newRR pid)
    let newPR := if perRacePlayer.isEmpty then base.playerResults else perRacePlayer
    { base with raceResults := newRR, playerResults := newPR }

/-! ### The Store Adapter and View Cache (F1DataManager state) -/

/-- The persistent store (the Excel workbook): the seven sheets plus an
accessibility flag (_check_excel_access). -/
structure Store where
  tables : RawData
  accessible : Bool
deriving DecidableEq

/-- The mutable state of F1DataManager: the store, the data cache and the
cache-validity flag. -/
structure ManagerState where
  store : Store
  dataCache : Option ProcessedData
  isCacheValid : Bool
deriving DecidableEq

/-- _load_raw_data: all-or-nothing raw load; none models the empty dict
returned when the workbook is inaccessible. -/
def loadRawData (st : Store) : Option RawData :=
  if st.accessible then some st.tables else none

/-- load_data(refresh): reload and re-process when refresh is requested, the
validity flag is down or the cache is empty; otherwise serve the cache.
Returns the updated manager state and the processed data. -/
def load_data (refresh : Bool) (s : ManagerState) :
    ManagerState × Option ProcessedData :=
  if refresh || !s.isCacheValid || s.dataCache.isNone then
    match loadRawData s.store with
    | some raw =>
      let d := processData raw
      ({ s with dataCache := some d, isCacheValid := true }, some d)
    | none => ({ s with dataCache := none, isCacheValid := false }, none)
  else (s, s.dataCache)

/-- save_player_results: drop the stored player rows of the race and append
the new ones, then invalidate the cache. -/
def save_player_results (raceId : String) (rows : List PlayerResultRow)
    (s : ManagerState) : ManagerState × Bool :=
  if !s.store.accessible then (s, false)
  else
    let kept := s.store.tables.playerResults.filter (fun r => r.raceId != raceId)
    ({ s with
        store := { s.store with
          tables := { s.store.tables with playerResults := kept ++ rows } },
        isCacheValid := false }, true)

/-- add_player: append one open-ended pick per chosen driver (FromDate is the
current day), then invalidate the cache. -/
def add_player (today : Nat) (playerId playerName : String)
    (driverIds : List String) (s : ManagerState) : ManagerState × Bool :=
  if !s.store.accessible then (s, false)
  else
    let newPicks : List PickRow :=
      driverIds.map (fun did => ⟨playerId, playerName, did, today, none⟩)
    ({ s with
        store := { s.store with
          tables := { s.store.tables with
            playerPicks := s.store.tables.playerPicks ++ newPicks } },
        isCacheValid := false }, true)

/-- save_race_results: replace the stored results of the race, mark the race
Completed, then invalidate the cache. -/
def save_race_results (raceId : String) (resultsData : List RaceResultRow)
    (s : ManagerState) : ManagerState × Bool :=
  if !s.store.accessible then (s, false)
  else
    let kept := s.store.tables.raceResults.filter (fun r => r.raceId != raceId)
    let newRaces := s.store.tables.races.map
      (fun r => if r.raceId == raceId then { r with status := "Completed" } else r)
    ({ s with
        store := { s.store with
          tables := { s.store.tables with
            raceResults := kept ++ resultsData, races := newRaces } },
        isCacheValid := false }, true)

/-! ### The Scoring Engine (calculate_player_points_for_race) -/

/-- is_abu_dhabi and the multiplier: the season final has the fixed id ABU
and counts double; every other race counts single. -/
def raceMultiplier (raceId : String) : Points :=
  if raceId == "ABU" then 2 else 1

/-- Per-driver contribution inside calculate_player_points_for_race: the
first substitution row naming the pick's driver as replaced wins, and the
substitute's per-race points are used; with no substitution the driver's own
per-race points are used; a missing result row contributes 0. -/
def driverContribution (mult : Points) (rrFiltered : List ProcRaceRow)
    (raceAssignments : List AssignRow) (driverId : String) : Points :=
  match raceAssignments.find? (fun a => a.substitutedForDriverId == driverId) with
  | some a =>
    match rrFiltered.find? (fun r => r.driverId == a.driverId) with
    | some r => r.points * mult
    | none => 0
  | none =>
    match rrFiltered.find? (fun r => r.driverId == driverId) with
    | some r => r.points * mult
    | none => 0

/-- The calculation-details segment appended for one driver (none when the
relevant result row is missing, in which case the source appends nothing). -/
def driverDetail (isAbu : Bool) (mult : Points) (rrFiltered : List ProcRaceRow)
    (raceAssignments : List AssignRow) (driverId : String) : Option String :=
  match raceAssignments.find? (fun a => a.substitutedForDriverId == driverId) with
  | some a =>
    match rrFiltered.find? (fun r => r.driverId == a.driverId) with
    | some r =>
      if isAbu then
        some (driverId ++ " (subbed by " ++ a.driverId ++ "): " ++ ratStr r.points
          ++ " x2 = " ++ ratStr (r.points * mult))
      else
        some (driverId ++ " (subbed by " ++ a.driverId ++ "): "
          ++ ratStr (r.points * mult))
    | none => none
  | none =>
    match rrFiltered.find? (fun r => r.driverId == driverId) with
    | some r =>
      if isAbu then
        some (driverId ++ ": " ++ ratStr r.points ++ " x2 = "
          ++ ratStr (r.points * mult))
      else some (driverId ++ ": " ++ ratStr (r.points * mult))
    | none => none

/-- The drivers picked by a player whose pick interval covers the race date:
FromDate at most the race date, and ToDate at least the race date or unset. -/
def playerActiveDrivers (picks : List PickRow) (playerId : String)
    (raceDate : Nat) : List String :=
  ((picks.filter (fun p =>
      p.playerId == playerId && decide (p.fromDate ≤ raceDate) &&
      (match p.toDate with
       | some t => decide (raceDate ≤ t)
       | none => true))).map (fun p => p.driverId))

/-- The player result rows assembled by calculate_player_points_for_race for
one race: one row per unique player of the picks table, whose Points is the
sum of the per-driver contributions (the per-race delta total). -/
def computePlayerRows (raceId : String) (data : ProcessedData)
    (raceDate : Nat) : List PlayerResultRow :=
  let isAbu := raceId == "ABU"
  let mult := raceMultiplier raceId
  let rrF := data.raceResults.filter (fun r => r.raceId == raceId)
  let asgF := data.driverAssignments.filter (fun a => a.raceId == raceId)
  (uniqueKeys (data.playerPicks.map (fun p => p.playerId))).map (fun pid =>
    let ds := playerActiveDrivers data.playerPicks pid raceDate
    let total := (ds.map (driverContribution mult rrF asgF)).sum
    let details := ds.filterMap (driverDetail isAbu mult rrF asgF)
    ⟨raceId, pid, total, String.intercalate ", " details⟩)

/-- calculate_player_points_for_race: reload (refresh), resolve the race,
compute every player's row and persist through save_player_results (whose
return value the source discards). -/
def calculate_player_points_for_race (raceId : String) (s : ManagerState) :
    ManagerState × Bool :=
  if !s.store.accessible then (s, false)
  else
    let p := load_data true s
    match p.2 with
    | none => (p.1, false)
    | some data =>
      match (data.races.filter (fun r => r.raceId == raceId)).head? with
      | none => (p.1, false)
      | some raceInfo =>
        ((save_player_results raceId
            (computePlayerRows raceId data raceInfo.date) p.1).1, true)

/-- RaceIDs with status Completed (in table order), as consulted by
record_driver_substitution. -/
def completedIdsOf (races : List RaceRow) : List String :=
  (races.filter (fun r => r.status == "Completed")).map (fun r => r.raceId)

/-- The duplicate check of record_driver_substitution: all four columns of
an existing assignment row coincide with the requested one. -/
def assignMatches (raceId subId teamId replacedId : String) (a : AssignRow) :
    Bool :=
  a.raceId == raceId && a.driverId == subId && a.teamId == teamId &&
    a.substitutedForDriverId == replacedId

/-- record_driver_substitution: a duplicate assignment is a no-op success;
otherwise the assignment is appended, the cache invalidated, the data
reloaded, and, when the race is already Completed, the player points for the
race are recalculated and persisted. -/
def record_driver_substitution (raceId subId teamId replacedId : String)
    (s : ManagerState) : ManagerState × Bool :=
  if !s.store.accessible then (s, false)
  else
    let existing := s.store.tables.driverAssignments.filter
      (assignMatches raceId subId teamId replacedId)
    if existing.isEmpty then
      let s1 : ManagerState :=
        { s with
          store := { s.store with
            tables := { s.store.tables with
              driverAssignments :=
                s.store.tables.driverAssignments ++ [⟨raceId, subId, teamId, replacedId⟩] } },
          isCacheValid := false }
      let p := load_data false s1
      let races := match p.2 with | some d => d.races | none => []
      if !races.isEmpty && (completedIdsOf races).contains raceId then
        ((calculate_player_points_for_race raceId p.1).1, true)
      else (p.1, true)
    else (s, true)

/-! ### parse_calculation_details (player_model.py) -/

/-- Python float() on the value part, restricted to plain decimal notation:
optional sign, digits with an optional fractional part.  Other accepted
Python spellings (exponents, inf, nan, underscores) are outside the data
domain of this application and are not modelled. -/
def pyFloatLit (s0 : String) : Option Points :=
  let s := pyStrip s0
  let body := if s.startsWith "-" || s.startsWith "+" then s.drop 1 else s
  let sgn : Points := if s.startsWith "-" then -1 else 1
  match body.data.splitOn '.' with
  | [a] =>
    if !a.isEmpty && a.all Char.isDigit then some (sgn * (digitsToNat a : ℚ))
    else none
  | [a, b] =>
    if (!a.isEmpty || !b.isEmpty) && a.all Char.isDigit && b.all Char.isDigit then
      some (sgn * ((digitsToNat a : ℚ) + (digitsToNat b : ℚ) / (10 ^ b.length : ℚ)))
    else none
  | _ => none

/-- Maximal leading run of digits and the remainder. -/
def takeDigits : List Char → List Char × List Char
  | [] => ([], [])
  | c :: rest =>
    if c.isDigit then
      let p := takeDigits rest
      (c :: p.1, p.2)
    else ([], c :: rest)

/-- A regex match of digits-dot-digits starting at a digit: the integer run,
then a fractional part only when a dot directly followed by a digit comes
next (greedy, as the pattern backslash-d+(backslash-.backslash-d+)?). -/
def numCore (cs : List Char) : Option Points :=
  let p := takeDigits cs
  if p.1.isEmpty then none
  else
    match p.2 with
    | '.' :: r2 =>
      let f := takeDigits r2
      if f.1.isEmpty then some (digitsToNat p.1 : ℚ)
      else some ((digitsToNat p.1 : ℚ) + (digitsToNat f.1 : ℚ) / (10 ^ f.1.length : ℚ))
    | _ => some (digitsToNat p.1 : ℚ)

/-- A match of the whole pattern with optional leading minus attempted at the
current position. -/
def numAt : List Char → Option Points
  | [] => none
  | '-' :: rest =>
    match rest with
    | c :: _ => if c.isDigit then (numCore rest).map (fun q => -q) else none
    | [] => none
  | c :: rest => if c.isDigit then numCore (c :: rest) else none

/-- re.search of the numeric-token pattern: the leftmost match wins. -/
def searchNum : List Char → Option Points
  | [] => none
  | c :: rest =>
    match numAt (c :: rest) with
    | some q => some q
    | none => searchNum rest

/-- The first numeric-looking token of a string, as extracted by the regex
fallback of parse_calculation_details. -/
def firstNumericToken (s : String) : Option Points := searchNum s.data

/-- Python dict assignment: replace the value of an existing key in place,
otherwise append. -/
def dictInsert (d : List (String × Points)) (k : String) (v : Points) :
    List (String × Points) :=
  if d.any (fun kv => kv.1 == k) then
    d.map (fun kv => if kv.1 == k then (k, v) else kv)
  else d ++ [(k, v)]

/-- The numeric value of one colon segment: float() on the stripped value
part, else the first numeric-looking token, else 0. -/
def segmentValue (pointsPart : String) : Points :=
  match pyFloatLit pointsPart with
  | some q => q
  | none =>
    match firstNumericToken pointsPart with
    | some q => q
    | none => 0

/-- One iteration of the parsing loop of parse_calculation_details; none
models the uncaught IndexError raised when the driver part before the colon
holds no word. -/
def parseSegment (d : List (String × Points)) (part0 : String) :
    Option (List (String × Points)) :=
  let part := pyStrip part0
  if strContainsChar part ':' then
    let sp := splitFirstColon part
    match pyWords (pyStrip sp.1) with
    | [] => none
    | w :: _ => some (dictInsert d w (segmentValue sp.2))
  else some d

/-- parse_calculation_details: the empty string parses to the empty mapping;
otherwise every comma segment is folded through parseSegment; none models an
uncaught exception. -/
def parse_calculation_details (details : String) :
    Option (List (String × Points)) :=
  if details == "" then some []
  else (splitComma details).foldlM parseSegment []

/-- The raw tables with one assignment row appended (the write performed by
record_driver_substitution). -/
def withNewAssignment (t : RawData) (row : AssignRow) : RawData :=
  { t with driverAssignments := t.driverAssignments ++ [row] }

/-- The last recorded cumulative value among the given events, with a
default for when none of them has a record. -/
def lastRecD (cum : String → Option Points) (ids : List String) (p : Points) :
    Points :=
  (ids.filterMap cum).getLastD p

/-! ### Lemmas about the delta walk -/

theorem walkDeltas_length (cum : String → Option Points) (ids : List String)
    (p : Points) : (walkDeltas cum ids p).length = ids.length := by
  induction ids generalizing p with
  | nil => rfl
  | cons rid rest ih =>
    unfold walkDeltas
    cases cum rid <;> simp [ih]

theorem lastRecD_cons (cum : String → Option Points) (rid : String)
    (ids : List String) (p : Points) :
    lastRecD cum (rid :: ids) p =
      match cum rid with
      | some c => lastRecD cum ids c
      | none => lastRecD cum ids p := by
  unfold lastRecD
  cases hc : cum rid with
  | some c =>
    simp only [List.filterMap_cons, hc, List.getLastD_cons]
  | none =>
    simp only [List.filterMap_cons, hc]

theorem walkDeltas_getElem (cum : String → Option Points) (ids : List String)
    (p : Points) (i : Nat) (h : i < ids.length) :
    (walkDeltas cum ids p)[i]? =
      some (ids.get ⟨i, h⟩,
        (match cum (ids.get ⟨i, h⟩) with
         | some c => c - lastRecD cum (ids.take i) p
         | none => 0),
        lastRecD cum (ids.take (i + 1)) p) := by
  induction ids generalizing p i with
  | nil => exact absurd h (Nat.not_lt_zero i)
  | cons rid rest ih =>
    cases i with
    | zero =>
      unfold walkDeltas
      cases hc : cum rid with
      | some c => simp [lastRecD, hc, List.filterMap_cons]
      | none => simp [lastRecD, hc]
    | succ j =>
      have hj : j < rest.length := Nat.lt_of_succ_lt_succ h
      have ht1 : (rid :: rest).take (j + 1) = rid :: rest.take j := rfl
      have ht2 : (rid :: rest).take (j + 2) = rid :: rest.take (j + 1) := rfl
      unfold walkDeltas
      cases hc : cum rid with
      | some c =>
        simp only [List.getElem?_cons_succ, ih c j hj, ht1, ht2,
          lastRecD_cons, hc, List.get_cons_succ]
      | none =>
        simp only [List.getElem?_cons_succ, ih p j hj, ht1, ht2,
          lastRecD_cons, hc, List.get_cons_succ]

theorem walkDeltas_sum (cum : String → Option Points) (ids : List String)
    (p : Points) :
    ((walkDeltas cum ids p).map (fun t => t.2.1)).sum = lastRecD cum ids p - p := by
  induction ids generalizing p with
  | nil => simp [walkDeltas, lastRecD]
  | cons rid rest ih =>
    unfold walkDeltas
    cases hc : cum rid with
    | some c =>
      simp only [List.map_cons, List.sum_cons, ih c, lastRecD_cons, hc]
      ring
    | none =>
      simp only [List.map_cons, List.sum_cons, ih p, lastRecD_cons, hc]
      ring

/-! ### C2: the delta walk of the normalizer -/

/-- C2: for every snapshot and every entity cumulative map, the normalizer
walks the completed events sorted ascending by date with previous_cumulative
initialized to 0; the i-th emitted row carries delta = cumulative minus the
last previously recorded cumulative when a record exists (negative when the
cumulative decreased), and delta = 0 with previous_cumulative unchanged when
no record exists. -/
theorem normalizer_delta_walk (races : List RaceRow)
    (cum : String → Option Points) (i : Nat)
    (h : i < (completedRaceIds races).length) :
    List.Sorted raceDateLe
      (sortByDate (races.filter (fun r => r.status == "Completed")))
    ∧ (walkDeltas cum (completedRaceIds races) 0)[i]? =
        some ((completedRaceIds races).get ⟨i, h⟩,
          (match cum ((completedRaceIds races).get ⟨i, h⟩) with
           | some c => c - lastRecD cum ((completedRaceIds races).take i) 0
           | none => 0),
          lastRecD cum ((completedRaceIds races).take (i + 1)) 0) :=
  ⟨List.sorted_insertionSort raceDateLe _,
   walkDeltas_getElem cum (completedRaceIds races) 0 i h⟩

/-- Example races for the walk theorems; the table is deliberately out of
date order and holds an uncompleted race. -/
def c2Races : List RaceRow :=
  [⟨"R2", "Second", 20, "Completed"⟩, ⟨"R1", "First", 10, "Completed"⟩,
   ⟨"RX", "Skipped", 15, "Upcoming"⟩]

/-- Example cumulative map with a decreasing value at the second event. -/
def c2Cum : String → Option Points :=
  fun rid => if rid = "R1" then some 10 else if rid = "R2" then some 4 else none

theorem normalizer_delta_walk_witness :
    1 < (completedRaceIds c2Races).length
    ∧ (walkDeltas c2Cum (completedRaceIds c2Races) 0)[1]? =
        some (("R2", -6, 4) : String × Points × Points) :=
  ⟨by decide, by
    have h2 := (normalizer_delta_walk c2Races c2Cum 1 (by decide)).2
    rw [h2]
    show some (("R2", (4 : Points) - 10, 4) : String × Points × Points) = _
    norm_num⟩

/-! ### C5: the delta-sum invariant -/

/-- C5: for an entity whose recorded cumulative sequence over the completed
events is non-decreasing (and that has at least one record), the sum of its
normalized deltas across all completed events equals the cumulative value
recorded at the last event with a record. -/
theorem delta_sum_invariant (races : List RaceRow)
    (cum : String → Option Points)
    (hmono : List.Chain' (fun a b => a ≤ b)
      ((completedRaceIds races).filterMap cum))
    (hex : (completedRaceIds races).filterMap cum ≠ []) :
    ∃ c, ((completedRaceIds races).filterMap cum).getLast? = some c
      ∧ ((walkDeltas cum (completedRaceIds races) 0).map (fun t => t.2.1)).sum
          = c := by
  obtain ⟨c, hc⟩ : ∃ c,
      ((completedRaceIds races).filterMap cum).getLast? = some c := by
    cases hl : ((completedRaceIds races).filterMap cum).getLast? with
    | none => exact absurd (List.getLast?_eq_none_iff.mp hl) hex
    | some c => exact ⟨c, rfl⟩
  refine ⟨c, hc, ?_⟩
  rw [walkDeltas_sum]
  unfold lastRecD
  rw [List.getLastD_eq_getLast?, hc]
  simp

/-- Example cumulative map, non-decreasing. -/
def c5Cum : String → Option Points :=
  fun rid => if rid = "R1" then some 10 else if rid = "R2" then some 25 else none

theorem delta_sum_invariant_witness :
    List.Chain' (fun a b => a ≤ b) ((completedRaceIds c2Races).filterMap c5Cum)
    ∧ (completedRaceIds c2Races).filterMap c5Cum ≠ []
    ∧ ∃ c, ((completedRaceIds c2Races).filterMap c5Cum).getLast? = some c
        ∧ ((walkDeltas c5Cum (completedRaceIds c2Races) 0).map
              (fun t => t.2.1)).sum = c := by
  have hfm : (completedRaceIds c2Races).filterMap c5Cum = [10, 25] := rfl
  have hchain : List.Chain' (fun a b => a ≤ b)
      ((completedRaceIds c2Races).filterMap c5Cum) := by
    rw [hfm]
    norm_num [List.chain'_cons]
  have hne : (completedRaceIds c2Races).filterMap c5Cum ≠ [] := by
    rw [hfm]; simp
  exact ⟨hchain, hne, delta_sum_invariant c2Races c5Cum hchain hne⟩

/-! ### C3: substitution precedence -/

/-- C3: when the first DriverAssignment row naming the pick's driver as
replaced exists, the contribution equals the multiplier times the
substitute's per-race result (0 when the substitute has no result row), and
a result row of the original driver himself never changes the outcome. -/
theorem substitution_precedence (mult : Points) (rr : List ProcRaceRow)
    (asg : List AssignRow) (d : String) (a0 : AssignRow)
    (hfind : asg.find? (fun a => a.substitutedForDriverId == d) = some a0) :
    driverContribution mult rr asg d =
      mult * (match rr.find? (fun r => r.driverId == a0.driverId) with
              | some r => r.points
              | none => 0)
    ∧ (rr.find? (fun r => r.driverId == a0.driverId) = none →
        driverContribution mult rr asg d = 0)
    ∧ ∀ row : ProcRaceRow, row.driverId = d → a0.driverId ≠ d →
        driverContribution mult (row :: rr) asg d =
          driverContribution mult rr asg d := by
  refine ⟨?_, ?_, ?_⟩
  · simp only [driverContribution, hfind]
    cases hr : rr.find? (fun r => r.driverId == a0.driverId) with
    | some r => rw [mul_comm]
    | none => rw [mul_zero]
  · intro h0
    simp only [driverContribution, hfind, h0]
  · intro row hrow hne
    have hfalse : (row.driverId == a0.driverId) = false := by
      rw [hrow]
      exact beq_false_of_ne (fun hdd => hne hdd.symm)
    have hcons : (row :: rr).find? (fun r => r.driverId == a0.driverId) =
        rr.find? (fun r => r.driverId == a0.driverId) := by
      simp [List.find?, hfalse]
    simp only [driverContribution, hfind, hcons]

/-- Example processed race rows for one race: the substitute and — crucially
— the original driver both have a result. -/
def c3rr : List ProcRaceRow :=
  [⟨"E1", "VER", 7, some 100⟩, ⟨"E1", "BEA", 8, some 20⟩]

/-- Example assignments: two rows name VER as replaced; the first names BEA,
which must win. -/
def c3asg : List AssignRow :=
  [⟨"E1", "BEA", "RBR", "VER"⟩, ⟨"E1", "ZHO", "RBR", "VER"⟩]

theorem substitution_precedence_witness :
    c3asg.find? (fun a => a.substitutedForDriverId == "VER") =
      some (⟨"E1", "BEA", "RBR", "VER"⟩ : AssignRow)
    ∧ (driverContribution 1 c3rr c3asg "VER" =
        1 * (match c3rr.find?
              (fun r => r.driverId ==
                (⟨"E1", "BEA", "RBR", "VER"⟩ : AssignRow).driverId) with
             | some r => r.points
             | none => 0)
      ∧ (c3rr.find? (fun r => r.driverId ==
            (⟨"E1", "BEA", "RBR", "VER"⟩ : AssignRow).driverId) = none →
          driverContribution 1 c3rr c3asg "VER" = 0)
      ∧ ∀ row : ProcRaceRow, row.driverId = "VER" →
          (⟨"E1", "BEA", "RBR", "VER"⟩ : AssignRow).driverId ≠ "VER" →
          driverContribution 1 (row :: c3rr) c3asg "VER" =
            driverContribution 1 c3rr c3asg "VER") :=
  ⟨by decide,
   substitution_precedence 1 c3rr c3asg "VER" ⟨"E1", "BEA", "RBR", "VER"⟩
     (by decide)⟩

/-! ### C4: the season-final multiplier -/

theorem driverContribution_mult (m : Points) (rr : List ProcRaceRow)
    (asg : List AssignRow) (d : String) :
    driverContribution m rr asg d = m * driverContribution 1 rr asg d := by
  cases ha : asg.find? (fun a => a.substitutedForDriverId == d) with
  | some a =>
    cases hr2 : rr.find? (fun r => r.driverId == a.driverId) with
    | some r =>
      simp only [driverContribution, ha, hr2, mul_one]
      rw [mul_comm]
    | none => simp only [driverContribution, ha, hr2, mul_zero]
  | none =>
    cases hr2 : rr.find? (fun r => r.driverId == d) with
    | some r =>
      simp only [driverContribution, ha, hr2, mul_one]
      rw [mul_comm]
    | none => simp only [driverContribution, ha, hr2, mul_zero]

theorem sum_map_two_mul (ds : List String) (f : String → Points) :
    (ds.map (fun d => 2 * f d)).sum = 2 * (ds.map f).sum := by
  induction ds with
  | nil => simp
  | cons d rest ih =>
    simp only [List.map_cons, List.sum_cons, ih]
    ring

/-- C4: with the same per-race driver rows, assignments and picked drivers,
scoring the designated season-final event ABU yields per-driver
contributions and a total exactly twice those of any non-final event. -/
theorem season_final_multiplier (rr : List ProcRaceRow) (asg : List AssignRow)
    (ds : List String) (r : String) (hr : r ≠ "ABU") :
    ds.map (driverContribution (raceMultiplier "ABU") rr asg) =
      ds.map (fun d => 2 * driverContribution (raceMultiplier r) rr asg d)
    ∧ (ds.map (driverContribution (raceMultiplier "ABU") rr asg)).sum =
        2 * (ds.map (driverContribution (raceMultiplier r) rr asg)).sum := by
  have hA : raceMultiplier "ABU" = 2 := rfl
  have hr1 : raceMultiplier r = 1 := by
    unfold raceMultiplier
    rw [if_neg]
    intro hbeq
    exact hr (by simpa using hbeq)
  have hmap : ds.map (driverContribution (raceMultiplier "ABU") rr asg) =
      ds.map (fun d => 2 * driverContribution (raceMultiplier r) rr asg d) := by
    apply List.map_congr_left
    intro d _
    rw [hA, hr1, driverContribution_mult 2 rr asg d]
  refine ⟨hmap, ?_⟩
  rw [hmap, sum_map_two_mul]

theorem season_final_multiplier_witness :
    ("CAN" : String) ≠ "ABU"
    ∧ (["VER"].map (driverContribution (raceMultiplier "ABU") c3rr c3asg) =
        ["VER"].map
          (fun d => 2 * driverContribution (raceMultiplier "CAN") c3rr c3asg d)
      ∧ (["VER"].map (driverContribution (raceMultiplier "ABU") c3rr c3asg)).sum
          = 2 * (["VER"].map
              (driverContribution (raceMultiplier "CAN") c3rr c3asg)).sum) :=
  ⟨by decide, season_final_multiplier c3rr c3asg ["VER"] "CAN" (by decide)⟩

/-! ### C7: normalization with no completed races -/

/-- Example snapshot with no completed race but a nonempty raw results
table. -/
def c7Raw : RawData :=
  ⟨[⟨"AUS", "Australian GP", 10, "Upcoming"⟩], [], [], [], [],
   [⟨"AUS", "VER", 10⟩], []⟩

/-- C7 counterexample: with no completed races, the normalized driver result
table equals the raw one, which here is nonempty — it is not emptied. -/
theorem normalization_keeps_raw_counterexample :
    c7Raw.races.filter (fun r => r.status == "Completed") = []
    ∧ (processData c7Raw).raceResults = [⟨"AUS", "VER", 10, none⟩]
    ∧ (processData c7Raw).raceResults ≠ [] := by
  refine ⟨rfl, rfl, ?_⟩
  intro hnil
  rw [show (processData c7Raw).raceResults = [⟨"AUS", "VER", 10, none⟩]
    from rfl] at hnil
  simp at hnil

/-- C7 amended: with no completed races, normalization succeeds and returns
the raw driver and player result tables unchanged (so they are empty exactly
when the raw tables are). -/
theorem no_completed_races_returns_raw (raw : RawData)
    (h : raw.races.filter (fun r => r.status == "Completed") = []) :
    (processData raw).raceResults =
      raw.raceResults.map (fun r => ⟨r.raceId, r.driverId, r.points, none⟩)
    ∧ (processData raw).playerResults =
      raw.playerResults.map
        (fun r => ⟨r.raceId, r.playerId, r.points, none, r.calculationDetails⟩) := by
  have hids : completedRaceIds raw.races = [] := by
    unfold completedRaceIds sortByDate
    rw [h]
    rfl
  constructor <;> simp only [processData, hids, List.isEmpty_nil, if_true]

/-- Example snapshot with no completed race and empty result tables. -/
def c7RawEmpty : RawData :=
  ⟨[⟨"AUS", "Australian GP", 10, "Upcoming"⟩], [], [], [], [], [], []⟩

theorem no_completed_races_returns_raw_witness :
    c7RawEmpty.races.filter (fun r => r.status == "Completed") = []
    ∧ ((processData c7RawEmpty).raceResults =
        c7RawEmpty.raceResults.map
          (fun r => ⟨r.raceId, r.driverId, r.points, none⟩)
      ∧ (processData c7RawEmpty).playerResults =
        c7RawEmpty.playerResults.map
          (fun r => ⟨r.raceId, r.playerId, r.points, none,
            r.calculationDetails⟩)) :=
  ⟨rfl, no_completed_races_returns_raw c7RawEmpty rfl⟩

/-! ### C8: parsing of calculation details -/

/-- C8 counterexample: a colon segment whose driver part is empty makes
parse_calculation_details raise (an IndexError on an empty word list),
modelled as none — parsing does not always succeed. -/
theorem parse_details_raises_counterexample :
    parse_calculation_details ": 5" = none := by decide

theorem parseSegment_foldlM_total (parts : List String)
    (h : ∀ part ∈ parts, strContainsChar (pyStrip part) ':' = true →
        pyWords (pyStrip (splitFirstColon (pyStrip part)).1) ≠ [])
    (acc : List (String × Points)) :
    (parts.foldlM parseSegment acc).isSome := by
  induction parts generalizing acc with
  | nil => simp
  | cons p rest ih =>
    rw [List.foldlM_cons]
    have hrest := fun q hq => h q (List.mem_cons_of_mem p hq)
    cases hc : strContainsChar (pyStrip p) ':' with
    | false =>
      have hseg : parseSegment acc p = some acc := by
        simp only [parseSegment, hc]
        rfl
      rw [hseg]
      exact ih hrest acc
    | true =>
      have hw := h p (List.mem_cons_self p rest) hc
      cases hpw : pyWords (pyStrip (splitFirstColon (pyStrip p)).1) with
      | nil => exact absurd hpw hw
      | cons w ws =>
        have hseg : parseSegment acc p =
            some (dictInsert acc w (segmentValue (splitFirstColon (pyStrip p)).2)) := by
          simp only [parseSegment, hc, hpw]
          rfl
        rw [hseg]
        exact ih hrest _

/-- C8 amended: parsing never raises on a details string in which every
colon-containing segment carries at least one word before the colon; each
such segment yields a numeric contribution — the value part parsed as a
number, else the first numeric-looking token, else zero (the fallback chain
of segmentValue). -/
theorem parse_details_total (s : String)
    (h : ∀ part ∈ splitComma s, strContainsChar (pyStrip part) ':' = true →
        pyWords (pyStrip (splitFirstColon (pyStrip part)).1) ≠ []) :
    (parse_calculation_details s).isSome := by
  unfold parse_calculation_details
  cases hs : (s == "") with
  | true => simp
  | false =>
    simp only [hs, Bool.false_eq_true, if_false]
    exact parseSegment_foldlM_total (splitComma s) h []

/-- Example details string exercising both the substitution note (regex
fallback path) and the plain float path. -/
def c8Str : String := "VER (subbed by BEA): 8 x2 = 16, LEC: 2.5"

theorem parse_details_total_witness :
    (∀ part ∈ splitComma c8Str, strContainsChar (pyStrip part) ':' = true →
        pyWords (pyStrip (splitFirstColon (pyStrip part)).1) ≠ [])
    ∧ (parse_calculation_details c8Str).isSome :=
  ⟨by decide, parse_details_total c8Str (by decide)⟩

/-! ### Unfolding lemmas for the manager operations -/

theorem processData_races (raw : RawData) :
    (processData raw).races = raw.races := by
  simp only [processData]
  split <;> rfl

theorem processData_playerPicks (raw : RawData) :
    (processData raw).playerPicks = raw.playerPicks := by
  simp only [processData]
  split <;> rfl

theorem processData_driverAssignments (raw : RawData) :
    (processData raw).driverAssignments = raw.driverAssignments := by
  simp only [processData]
  split <;> rfl

theorem load_data_store (b : Bool) (s : ManagerState) :
    (load_data b s).1.store = s.store := by
  unfold load_data
  split
  · cases hl : loadRawData s.store with
    | some raw => simp only [hl]
    | none => simp only [hl]
  · rfl

theorem load_data_of_invalid (s : ManagerState)
    (hacc : s.store.accessible = true) (hval : s.isCacheValid = false) :
    load_data false s =
      ({ s with
          dataCache := some (processData s.store.tables),
          isCacheValid := true },
       some (processData s.store.tables)) := by
  simp [load_data, loadRawData, hval, hacc]

theorem load_data_refresh (s : ManagerState)
    (hacc : s.store.accessible = true) :
    load_data true s =
      ({ s with
          dataCache := some (processData s.store.tables),
          isCacheValid := true },
       some (processData s.store.tables)) := by
  simp [load_data, loadRawData, hacc]

theorem save_player_results_eq (rid : String) (rows : List PlayerResultRow)
    (s : ManagerState) (hacc : s.store.accessible = true) :
    save_player_results rid rows s =
      ({ s with
          store := { s.store with tables := { s.store.tables with
            playerResults :=
              s.store.tables.playerResults.filter (fun r => r.raceId != rid)
                ++ rows } },
          isCacheValid := false }, true) := by
  simp [save_player_results, hacc]

theorem calculate_eq (rid : String) (s : ManagerState)
    (hacc : s.store.accessible = true) (info : RaceRow)
    (hhead : ((processData s.store.tables).races.filter
        (fun r => r.raceId == rid)).head? = some info) :
    calculate_player_points_for_race rid s =
      ((save_player_results rid
          (computePlayerRows rid (processData s.store.tables) info.date)
          { s with
            dataCache := some (processData s.store.tables),
            isCacheValid := true }).1, true) := by
  simp only [calculate_player_points_for_race, hacc, Bool.not_true,
    Bool.false_eq_true, if_false, load_data_refresh s hacc, hhead]

theorem calculate_eq_notfound (rid : String) (s : ManagerState)
    (hacc : s.store.accessible = true)
    (hhead : ((processData s.store.tables).races.filter
        (fun r => r.raceId == rid)).head? = none) :
    calculate_player_points_for_race rid s =
      ({ s with
          dataCache := some (processData s.store.tables),
          isCacheValid := true }, false) := by
  simp only [calculate_player_points_for_race, hacc, Bool.not_true,
    Bool.false_eq_true, if_false, load_data_refresh s hacc, hhead]

theorem save_player_results_playerResults (rid : String)
    (rows : List PlayerResultRow) (s : ManagerState)
    (hacc : s.store.accessible = true) :
    (save_player_results rid rows s).1.store.tables.playerResults =
      s.store.tables.playerResults.filter (fun r => r.raceId != rid) ++ rows := by
  simp [save_player_results, hacc]

theorem save_player_results_isCacheValid (rid : String)
    (rows : List PlayerResultRow) (s : ManagerState)
    (hacc : s.store.accessible = true) :
    (save_player_results rid rows s).1.isCacheValid = false := by
  simp [save_player_results, hacc]

theorem calculate_store_fields (rid : String) (s : ManagerState) :
    (calculate_player_points_for_race rid s).1.store.accessible =
      s.store.accessible
    ∧ (calculate_player_points_for_race rid s).1.store.tables.driverAssignments
        = s.store.tables.driverAssignments := by
  cases hacc : s.store.accessible with
  | false =>
    have hres : calculate_player_points_for_race rid s = (s, false) := by
      unfold calculate_player_points_for_race
      rw [hacc]
      rfl
    rw [hres]
    exact ⟨hacc, rfl⟩
  | true =>
    cases hh : ((processData s.store.tables).races.filter
        (fun r => r.raceId == rid)).head? with
    | some info =>
      rw [calculate_eq rid s hacc info hh,
        save_player_results_eq rid
          (computePlayerRows rid (processData s.store.tables) info.date)
          { store := s.store, dataCache := some (processData s.store.tables),
            isCacheValid := true } hacc]
      exact ⟨hacc, rfl⟩
    | none =>
      rw [calculate_eq_notfound rid s hacc hh]
      exact ⟨hacc, rfl⟩

theorem record_eq_new (rid subId tid repId : String) (s : ManagerState)
    (hacc : s.store.accessible = true)
    (hnew : s.store.tables.driverAssignments.filter
      (assignMatches rid subId tid repId) = []) :
    record_driver_substitution rid subId tid repId s =
      (if !(processData (withNewAssignment s.store.tables
            ⟨rid, subId, tid, repId⟩)).races.isEmpty
          && ((completedIdsOf (processData (withNewAssignment s.store.tables
              ⟨rid, subId, tid, repId⟩)).races).contains rid) then
        ((calculate_player_points_for_race rid
            ⟨⟨withNewAssignment s.store.tables ⟨rid, subId, tid, repId⟩,
              s.store.accessible⟩,
             some (processData (withNewAssignment s.store.tables
               ⟨rid, subId, tid, repId⟩)), true⟩).1, true)
      else
        (⟨⟨withNewAssignment s.store.tables ⟨rid, subId, tid, repId⟩,
            s.store.accessible⟩,
          some (processData (withNewAssignment s.store.tables
            ⟨rid, subId, tid, repId⟩)), true⟩, true)) := by
  simp only [record_driver_substitution, hacc, hnew, Bool.not_true,
    Bool.false_eq_true, if_false, List.isEmpty_nil, if_true,
    load_data_of_invalid, withNewAssignment]

theorem record_eq_dup (rid subId tid repId : String) (s : ManagerState)
    (hacc : s.store.accessible = true)
    (hdup : s.store.tables.driverAssignments.filter
      (assignMatches rid subId tid repId) ≠ []) :
    record_driver_substitution rid subId tid repId s = (s, true) := by
  unfold record_driver_substitution
  rw [hacc]
  simp only [Bool.not_true, Bool.false_eq_true, if_false]
  rw [if_neg]
  intro hT
  exact hdup (List.isEmpty_iff.mp hT)

/-! ### C9: idempotence of record_driver_substitution -/

/-- C9: recording an already-recorded substitution is a no-op success, and
recording the same substitution twice equals recording it once. -/
theorem record_substitution_idempotent (rid subId tid repId : String)
    (s : ManagerState) (hacc : s.store.accessible = true) :
    (s.store.tables.driverAssignments.filter
        (assignMatches rid subId tid repId) ≠ [] →
      record_driver_substitution rid subId tid repId s = (s, true))
    ∧ record_driver_substitution rid subId tid repId
        (record_driver_substitution rid subId tid repId s).1 =
      ((record_driver_substitution rid subId tid repId s).1, true) := by
  have hmatch : assignMatches rid subId tid repId ⟨rid, subId, tid, repId⟩
      = true := by
    simp [assignMatches]
  constructor
  · intro hdup
    exact record_eq_dup rid subId tid repId s hacc hdup
  · by_cases h0 : s.store.tables.driverAssignments.filter
        (assignMatches rid subId tid repId) = []
    · have hmem : (⟨rid, subId, tid, repId⟩ : AssignRow) ∈
          (s.store.tables.driverAssignments
            ++ ([⟨rid, subId, tid, repId⟩] : List AssignRow)).filter
            (assignMatches rid subId tid repId) :=
        List.mem_filter.mpr
          ⟨List.mem_append_right _ (List.mem_singleton_self _), hmatch⟩
      have hfiltne := List.ne_nil_of_mem hmem
      rw [record_eq_new rid subId tid repId s hacc h0]
      cases hg : (!(processData (withNewAssignment s.store.tables
            ⟨rid, subId, tid, repId⟩)).races.isEmpty
          && ((completedIdsOf (processData (withNewAssignment s.store.tables
              ⟨rid, subId, tid, repId⟩)).races).contains rid)) with
      | true =>
        rw [if_pos rfl]
        apply record_eq_dup
        · rw [(calculate_store_fields rid _).1]
          exact hacc
        · rw [(calculate_store_fields rid _).2]
          exact hfiltne
      | false =>
        rw [if_neg Bool.false_ne_true]
        apply record_eq_dup
        · exact hacc
        · exact hfiltne
    · have h1 := record_eq_dup rid subId tid repId s hacc h0
      rw [h1]
      exact h1

/-- Example state: an empty league with a single upcoming race. -/
def c6Raw : RawData :=
  ⟨[⟨"AUS", "Australian GP", 10, "Upcoming"⟩], [], [], [], [], [], []⟩

/-- Example manager state over c6Raw, freshly constructed. -/
def c6State : ManagerState := ⟨⟨c6Raw, true⟩, none, false⟩

theorem record_substitution_idempotent_witness :
    c6State.store.accessible = true
    ∧ ((c6State.store.tables.driverAssignments.filter
          (assignMatches "AUS" "ZHO" "FER" "VER") ≠ [] →
        record_driver_substitution "AUS" "ZHO" "FER" "VER" c6State
          = (c6State, true))
      ∧ record_driver_substitution "AUS" "ZHO" "FER" "VER"
          (record_driver_substitution "AUS" "ZHO" "FER" "VER" c6State).1 =
        ((record_driver_substitution "AUS" "ZHO" "FER" "VER" c6State).1,
          true)) :=
  ⟨rfl, record_substitution_idempotent "AUS" "ZHO" "FER" "VER" c6State rfl⟩

/-! ### C6: cache invalidation -/

/-- C6 counterexample: recording a substitution for an upcoming race
succeeds and genuinely writes a new assignment row, yet leaves the
cache-validity flag true (the operation reloads the cache itself after
invalidating it), contradicting the claim that every successful mutating
operation sets the flag to false. -/
theorem record_substitution_leaves_cache_valid :
    (record_driver_substitution "AUS" "ZHO" "FER" "VER" c6State).2 = true
    ∧ (record_driver_substitution "AUS" "ZHO" "FER" "VER"
        c6State).1.isCacheValid = true
    ∧ (record_driver_substitution "AUS" "ZHO" "FER" "VER"
        c6State).1.store.tables.driverAssignments ≠ [] := by
  refine ⟨?_, ?_, ?_⟩ <;> decide

/-- C6 amended: saving player results, adding a player and saving race
results each leave the validity flag false on success, and a reader finding
the flag false reloads and re-normalizes from the store; recording a
substitution on success either leaves the flag false, or was a duplicate
no-op, or leaves the flag true with the cache freshly normalized from the
post-write store — in every case the next read reflects the written data. -/
theorem cache_invalidation_amended (s : ManagerState)
    (rid pid pname subId tid repId : String) (rows : List PlayerResultRow)
    (rrs : List RaceResultRow) (dids : List String) (today : Nat) :
    ((save_player_results rid rows s).2 = true →
      (save_player_results rid rows s).1.isCacheValid = false)
    ∧ ((add_player today pid pname dids s).2 = true →
      (add_player today pid pname dids s).1.isCacheValid = false)
    ∧ ((save_race_results rid rrs s).2 = true →
      (save_race_results rid rrs s).1.isCacheValid = false)
    ∧ (s.isCacheValid = false →
      (load_data false s).2 = (loadRawData s.store).map processData)
    ∧ ((record_driver_substitution rid subId tid repId s).2 = true →
      ((record_driver_substitution rid subId tid repId s).1.isCacheValid
          = false
       ∨ record_driver_substitution rid subId tid repId s = (s, true)
       ∨ ((record_driver_substitution rid subId tid repId s).1.isCacheValid
            = true
          ∧ (record_driver_substitution rid subId tid repId s).1.dataCache =
              (loadRawData (record_driver_substitution rid subId tid repId
                  s).1.store).map processData))) := by
  refine ⟨?_, ?_, ?_, ?_, ?_⟩
  · intro hsucc
    cases hacc : s.store.accessible with
    | false => simp [save_player_results, hacc] at hsucc
    | true => simp [save_player_results, hacc]
  · intro hsucc
    cases hacc : s.store.accessible with
    | false => simp [add_player, hacc] at hsucc
    | true => simp [add_player, hacc]
  · intro hsucc
    cases hacc : s.store.accessible with
    | false => simp [save_race_results, hacc] at hsucc
    | true => simp [save_race_results, hacc]
  · intro hval
    unfold load_data
    rw [hval]
    simp only [Bool.not_false, Bool.or_true, Bool.true_or, if_true]
    cases hl : loadRawData s.store with
    | some raw => simp only [hl]; rfl
    | none => simp only [hl]; rfl
  · intro hsucc
    cases hacc : s.store.accessible with
    | false => simp [record_driver_substitution, hacc] at hsucc
    | true =>
      by_cases h0 : s.store.tables.driverAssignments.filter
          (assignMatches rid subId tid repId) = []
      · rw [record_eq_new rid subId tid repId s hacc h0]
        cases hg : (!(processData (withNewAssignment s.store.tables
              ⟨rid, subId, tid, repId⟩)).races.isEmpty
            && ((completedIdsOf (processData (withNewAssignment s.store.tables
                ⟨rid, subId, tid, repId⟩)).races).contains rid)) with
        | true =>
          rw [if_pos rfl]
          cases hh : ((processData (withNewAssignment s.store.tables
              ⟨rid, subId, tid, repId⟩)).races.filter
              (fun r => r.raceId == rid)).head? with
          | some info =>
            left
            rw [calculate_eq rid
              ⟨⟨withNewAssignment s.store.tables ⟨rid, subId, tid, repId⟩,
                s.store.accessible⟩,
               some (processData (withNewAssignment s.store.tables
                 ⟨rid, subId, tid, repId⟩)), true⟩ hacc info hh]
            exact save_player_results_isCacheValid _ _ _ hacc
          | none =>
            right; right
            rw [calculate_eq_notfound rid
              ⟨⟨withNewAssignment s.store.tables ⟨rid, subId, tid, repId⟩,
                s.store.accessible⟩,
               some (processData (withNewAssignment s.store.tables
                 ⟨rid, subId, tid, repId⟩)), true⟩ hacc hh]
            exact ⟨rfl, by simp [loadRawData, hacc]⟩
        | false =>
          rw [if_neg Bool.false_ne_true]
          right; right
          exact ⟨rfl, by simp [loadRawData, hacc]⟩
      · right; left
        exact record_eq_dup rid subId tid repId s hacc h0

theorem cache_invalidation_amended_witness :
    ((save_player_results "AUS" [] c6State).2 = true
      ∧ (save_player_results "AUS" [] c6State).1.isCacheValid = false)
    ∧ ((record_driver_substitution "AUS" "ZHO" "FER" "VER" c6State).2 = true
      ∧ ((record_driver_substitution "AUS" "ZHO" "FER" "VER"
            c6State).1.isCacheValid = false
         ∨ record_driver_substitution "AUS" "ZHO" "FER" "VER" c6State
            = (c6State, true)
         ∨ ((record_driver_substitution "AUS" "ZHO" "FER" "VER"
              c6State).1.isCacheValid = true
            ∧ (record_driver_substitution "AUS" "ZHO" "FER" "VER"
                c6State).1.dataCache =
              (loadRawData (record_driver_substitution "AUS" "ZHO" "FER" "VER"
                  c6State).1.store).map processData))) :=
  ⟨⟨by decide,
    (cache_invalidation_amended c6State "AUS" "P" "P" "ZHO" "FER" "VER"
        [] [] [] 0).1 (by decide)⟩,
   ⟨by decide,
    (cache_invalidation_amended c6State "AUS" "P" "P" "ZHO" "FER" "VER"
        [] [] [] 0).2.2.2.2 (by decide)⟩⟩

/-! ### C10: substitutions reprice already-completed races -/

theorem exists_head_of_completed (races : List RaceRow) (rid : String)
    (h : rid ∈ completedIdsOf races) :
    ∃ info, (races.filter (fun r => r.raceId == rid)).head? = some info := by
  obtain ⟨row, hrowmem, hrid⟩ := List.mem_map.mp h
  have hrow2 : row ∈ races := List.mem_of_mem_filter hrowmem
  have hmem2 : row ∈ races.filter (fun r => r.raceId == rid) :=
    List.mem_filter.mpr ⟨hrow2, by rw [hrid]; exact beq_self_eq_true rid⟩
  cases hh : (races.filter (fun r => r.raceId == rid)).head? with
  | none =>
    rw [List.head?_eq_none_iff] at hh
    rw [hh] at hmem2
    exact absurd hmem2 (List.not_mem_nil row)
  | some info => exact ⟨info, rfl⟩

theorem races_nonempty_of_completed (races : List RaceRow) (rid : String)
    (h : rid ∈ completedIdsOf races) : races.isEmpty = false := by
  obtain ⟨row, hrowmem, _⟩ := List.mem_map.mp h
  have hrow2 : row ∈ races := List.mem_of_mem_filter hrowmem
  cases races with
  | nil => exact absurd hrow2 (List.not_mem_nil row)
  | cons a l => rfl

theorem computePlayerRows_raceId (rid : String) (d : ProcessedData) (dt : Nat) :
    ∀ r ∈ computePlayerRows rid d dt, r.raceId = rid := by
  intro r hr
  obtain ⟨pid, _, heq⟩ := List.mem_map.mp hr
  rw [← heq]

theorem computePlayerRows_playerIds (rid : String) (d : ProcessedData)
    (dt : Nat) :
    ∀ pid ∈ uniqueKeys (d.playerPicks.map (fun p => p.playerId)),
      ∃ r ∈ computePlayerRows rid d dt, r.playerId = pid := by
  intro pid hpid
  exact ⟨_, List.mem_map_of_mem _ hpid, rfl⟩

theorem filter_raceId_append (rid : String) (old rows : List PlayerResultRow)
    (hrows : ∀ r ∈ rows, r.raceId = rid) :
    ((old.filter (fun r => r.raceId != rid)) ++ rows).filter
      (fun r => r.raceId == rid) = rows := by
  rw [List.filter_append]
  have h1 : (old.filter (fun r => r.raceId != rid)).filter
      (fun r => r.raceId == rid) = [] := by
    rw [List.filter_filter]
    apply List.filter_eq_nil_iff.mpr
    intro a _
    cases hb : (a.raceId == rid) <;> simp [bne, hb]
  have h2 : rows.filter (fun r => r.raceId == rid) = rows := by
    apply List.filter_eq_self.mpr
    intro r hr
    rw [hrows r hr]
    exact beq_self_eq_true rid
  rw [h1, h2, List.nil_append]

/-- C10: recording a new substitution for a race that is already Completed
additionally recalculates and persists every player's result row for that
race: afterwards the stored player rows of the race are exactly the rows
computed by the scoring engine over the post-write normalized view, with one
row for every player of the picks table. -/
theorem substitution_reprices_completed_race (rid subId tid repId : String)
    (s : ManagerState) (hacc : s.store.accessible = true)
    (hnew : s.store.tables.driverAssignments.filter
      (assignMatches rid subId tid repId) = [])
    (hcomp : rid ∈ completedIdsOf s.store.tables.races) :
    ∃ info : RaceRow,
      ((processData (withNewAssignment s.store.tables
          ⟨rid, subId, tid, repId⟩)).races.filter
          (fun r => r.raceId == rid)).head? = some info
      ∧ (record_driver_substitution rid subId tid repId s).2 = true
      ∧ ((record_driver_substitution rid subId tid repId
            s).1.store.tables.playerResults.filter
            (fun r => r.raceId == rid))
          = computePlayerRows rid
              (processData (withNewAssignment s.store.tables
                ⟨rid, subId, tid, repId⟩)) info.date
      ∧ ∀ pid ∈ uniqueKeys ((processData (withNewAssignment s.store.tables
            ⟨rid, subId, tid, repId⟩)).playerPicks.map (fun p => p.playerId)),
          ∃ r ∈ ((record_driver_substitution rid subId tid repId
              s).1.store.tables.playerResults.filter
              (fun r => r.raceId == rid)), r.playerId = pid := by
  have hraces : (processData (withNewAssignment s.store.tables
      ⟨rid, subId, tid, repId⟩)).races = s.store.tables.races := by
    rw [processData_races]
    rfl
  have hcomp2 : rid ∈ completedIdsOf (processData (withNewAssignment
      s.store.tables ⟨rid, subId, tid, repId⟩)).races := by
    rw [hraces]
    exact hcomp
  obtain ⟨info, hinfo⟩ := exists_head_of_completed _ rid hcomp2
  have hguard : (!(processData (withNewAssignment s.store.tables
        ⟨rid, subId, tid, repId⟩)).races.isEmpty
      && ((completedIdsOf (processData (withNewAssignment s.store.tables
          ⟨rid, subId, tid, repId⟩)).races).contains rid)) = true := by
    rw [hraces, races_nonempty_of_completed s.store.tables.races rid hcomp]
    have hcont : (completedIdsOf s.store.tables.races).contains rid = true :=
      List.elem_eq_true_of_mem hcomp
    rw [hcont]
    rfl
  have hrec : record_driver_substitution rid subId tid repId s =
      ((calculate_player_points_for_race rid
        ⟨⟨withNewAssignment s.store.tables ⟨rid, subId, tid, repId⟩,
          s.store.accessible⟩,
         some (processData (withNewAssignment s.store.tables
           ⟨rid, subId, tid, repId⟩)), true⟩).1, true) := by
    rw [record_eq_new rid subId tid repId s hacc hnew, if_pos hguard]
  have hcalc := calculate_eq rid
    ⟨⟨withNewAssignment s.store.tables ⟨rid, subId, tid, repId⟩,
      s.store.accessible⟩,
     some (processData (withNewAssignment s.store.tables
       ⟨rid, subId, tid, repId⟩)), true⟩ hacc info hinfo
  have hfilter : ((record_driver_substitution rid subId tid repId
        s).1.store.tables.playerResults.filter (fun r => r.raceId == rid))
      = computePlayerRows rid
          (processData (withNewAssignment s.store.tables
            ⟨rid, subId, tid, repId⟩)) info.date := by
    rw [hrec, hcalc, save_player_results_playerResults]
    · exact filter_raceId_append rid _ _
        (computePlayerRows_raceId rid _ info.date)
    · exact hacc
  refine ⟨info, hinfo, ?_, hfilter, ?_⟩
  · rw [hrec]
  · intro pid hpid
    obtain ⟨r, hr, hrp⟩ := computePlayerRows_playerIds rid
      (processData (withNewAssignment s.store.tables
        ⟨rid, subId, tid, repId⟩)) info.date pid hpid
    refine ⟨r, ?_, hrp⟩
    rw [hfilter]
    exact hr

/-- Example store with one completed race, two drivers with results and one
player pick, for the C10 witness. -/
def c10Raw : RawData :=
  ⟨[⟨"R1", "First", 10, "Completed"⟩],
   [⟨"VER", "Max", "RBR", 4⟩, ⟨"ZHO", "Zhou", "FER", 0⟩], [],
   [⟨"P1", "Alice", "VER", 0, none⟩], [],
   [⟨"R1", "VER", 10⟩, ⟨"R1", "ZHO", 4⟩], []⟩

/-- Example manager state over c10Raw. -/
def c10State : ManagerState := ⟨⟨c10Raw, true⟩, none, false⟩

theorem substitution_reprices_completed_race_witness :
    c10State.store.accessible = true
    ∧ c10State.store.tables.driverAssignments.filter
        (assignMatches "R1" "ZHO" "RBR" "VER") = []
    ∧ "R1" ∈ completedIdsOf c10State.store.tables.races
    ∧ ∃ info : RaceRow,
        ((processData (withNewAssignment c10State.store.tables
            ⟨"R1", "ZHO", "RBR", "VER"⟩)).races.filter
            (fun r => r.raceId == "R1")).head? = some info
        ∧ (record_driver_substitution "R1" "ZHO" "RBR" "VER" c10State).2 = true
        ∧ ((record_driver_substitution "R1" "ZHO" "RBR" "VER"
              c10State).1.store.tables.playerResults.filter
              (fun r => r.raceId == "R1"))
            = computePlayerRows "R1"
                (processData (withNewAssignment c10State.store.tables
                  ⟨"R1", "ZHO", "RBR", "VER"⟩)) info.date
        ∧ ∀ pid ∈ uniqueKeys ((processData (withNewAssignment
              c10State.store.tables ⟨"R1", "ZHO", "RBR", "VER"⟩)).playerPicks.map
              (fun p => p.playerId)),
            ∃ r ∈ ((record_driver_substitution "R1" "ZHO" "RBR" "VER"
                c10State).1.store.tables.playerResults.filter
                (fun r => r.raceId == "R1")), r.playerId = pid :=
  ⟨rfl, rfl, by decide,
   substitution_reprices_completed_race "R1" "ZHO" "RBR" "VER" c10State
     rfl rfl (by decide)⟩

/-! ### C1: the persisted player Points convention -/

/-- Example store: two completed races; VER has cumulative results 10 then
25; the player already has a stored (cumulative) result of 10 for the first
race. -/
def exC1Raw : RawData :=
  ⟨[⟨"R1", "Race 1", 10, "Completed"⟩, ⟨"R2", "Race 2", 20, "Completed"⟩],
   [⟨"VER", "Max", "RBR", 4⟩], [],
   [⟨"P1", "Alice", "VER", 0, none⟩], [],
   [⟨"R1", "VER", 10⟩, ⟨"R2", "VER", 25⟩],
   [⟨"R1", "P1", 10, "VER: 10"⟩]⟩

/-- Example manager state over exC1Raw. -/
def exC1State : ManagerState := ⟨⟨exC1Raw, true⟩, none, false⟩

/-- C1 evaluated at the failing input: in the normalized view the player's
prior cumulative total is 10 and the delta of the scored race is 15, yet the
row persisted for race R2 carries Points 15 — the engine-internal delta —
and not 15 + 10 = 25 as the cumulative convention of the claim requires.
The store's own loader reads PlayerResults as cumulative, so the written
value is in the wrong convention. -/
theorem scoring_persists_delta_not_cumulative :
    ((processData exC1Raw).playerResults.map
        (fun r => (r.raceId, r.points, r.cumulativePoints)))
      = [("R1", (10 : Points), some (10 : Points)), ("R2", 0, some 10)]
    ∧ (((calculate_player_points_for_race "R2"
          exC1State).1.store.tables.playerResults).map
          (fun r => (r.raceId, r.playerId, r.points)))
        = [("R1", "P1", (10 : Points)), ("R2", "P1", 15)]
    ∧ (15 : Points) ≠ 15 + 10 := by
  refine ⟨?_, ?_, by norm_num⟩
  · simp [processData, exC1Raw, completedRaceIds, sortByDate,
      List.insertionSort, List.orderedInsert, raceDateLe, uniqueKeys,
      perRaceDriverRows, perRacePlayerRows, walkDeltas, driverCumMap,
      playerDataMap, lookupLast, List.filter_cons, List.find?_cons,
      List.foldl_cons, List.foldl_nil]
  · simp [calculate_player_points_for_race, load_data, loadRawData,
      exC1State, exC1Raw, processData, completedRaceIds, sortByDate,
      List.insertionSort, List.orderedInsert, uniqueKeys, perRaceDriverRows,
      perRacePlayerRows, walkDeltas, driverCumMap, playerDataMap, lookupLast,
      computePlayerRows, playerActiveDrivers, driverContribution,
      raceMultiplier, save_player_results, completedIdsOf, raceDateLe,
      List.filter_cons, List.find?_cons, List.foldl_cons, List.foldl_nil,
      List.sum_cons, List.sum_nil, List.head?]
    norm_num

end F1
